import Mathlib

/-!
Verification of the search-serving core of the ColBERTv2 Wiki17 service:
the in-memory `DocumentStore`, the `ServiceState.search` reconciliation
loop, the `POST /search` HTTP boundary, the `get_state` process singleton
(all from `app/state.py` and `app/main.py`), and the `ColBERTv2Client`
remote adapter (`dspy_adapter/colbert.py`).

The embedding is shallow: Python values decoded by `json.loads` become an
inductive `Json` type, exceptions become `Except`, and the module-global
singleton cell becomes explicit state passing.  Machine floats never carry
any behaviour here beyond being passed through, so JSON numbers are
modelled as `Int` (Python `int`) and `ℚ` (Python `float`) with identity
coercions.
-/

set_option autoImplicit false

/-- A JSON value as decoded by Python `json.loads`: integer and
non-integer numerals decode to the distinct Python types `int` and
`float`, so they are kept apart here.  An object is its key/value list;
`json.loads` builds a `dict`, where a duplicated key keeps the last
occurrence. -/
inductive Json where
  | null
  | bool (b : Bool)
  | int (n : Int)
  | float (q : ℚ)
  | str (s : String)
  | arr (elems : List Json)
  | obj (fields : List (String × Json))
  deriving Repr

/-- Python `dict.get key` on a decoded JSON object: the value of the last
occurrence of `key` (matching `json.loads` duplicate handling), or
`none` when the key is absent. -/
def Json.objGet (fields : List (String × Json)) (key : String) : Option Json :=
  ((fields.filter (fun p => p.1 == key)).getLast?).map Prod.snd

/-- Python `x is None` on a decoded JSON value. -/
def Json.isNull : Json → Bool
  | .null => true
  | _ => false

/-- Python `str(x)` on a decoded JSON value.  It is exact on the shapes
the service actually stores as ids (strings and Python ints); Python's
`repr`-based rendering of floats, lists and dicts is not modelled
bit-exactly (no theorem below depends on those cases). -/
def pyStr : Json → String
  | .null => "None"
  | .bool true => "True"
  | .bool false => "False"
  | .int n => toString n
  | .float q => toString q
  | .str s => s
  | .arr _ => "<repr>"
  | .obj _ => "<repr>"

/-- One line of the metadata file as `json.loads` sees it: either a
`JSONDecodeError` or the decoded value.  A metadata source is the list
of its lines. -/
inductive MetaLine where
  | badJson
  | value (v : Json)
  deriving Repr

/-- The exceptions `app/state.py` raises, with the data interpolated into
their messages.  The spec's taxonomy maps onto them as follows:
`MetadataFormatError` is the `ValueError` "Invalid JSON on line n of src",
`MetadataFieldError` the `ValueError` "Missing 'text' field on line n of
src" (both carry the 1-based line number `idx + 1` and the source path),
`IndexOutOfRangeError` the re-raised `IndexError` carrying the index and
`len(self._ids)`, and `attributeError` is the untyped `AttributeError`
Python raises when `.get` is called on a decoded value that is not a
dict. -/
inductive PyErr where
  | metadataFormatError (lineNo : Nat) (src : String)
  | metadataFieldError (lineNo : Nat) (src : String)
  | attributeError
  | indexOutOfRangeError (idx : Int) (size : Nat)
  deriving Repr, DecidableEq

/-- The `DocumentStore` class (`app/state.py`): two parallel lists filled by
`__init__`; `_ids` holds `str(doc_id)`, `_texts` the raw decoded `"text"`
values (the source appends them without conversion, so they stay `Json`
here). -/
structure DocumentStore where
  _ids : List String
  _texts : List Json
  deriving Repr

/-- The body of the `DocumentStore.__init__` loop for the line with
0-based index `idx`: decode failure raises the "Invalid JSON" error;
`record.get("id", idx)` defaults a missing id to the Python int `idx`;
`record.get("text")` yields `None` when the field is absent (and a JSON
`null` decodes to `None` as well), which raises the "Missing 'text'"
error; calling `.get` on a non-dict value raises `AttributeError`. -/
def loadLine (src : String) (idx : Nat) : MetaLine → Except PyErr (String × Json)
  | .badJson => .error (.metadataFormatError (idx + 1) src)
  | .value v =>
    match v with
    | .obj fields =>
      let doc_id := (Json.objGet fields "id").getD (.int idx)
      let text := (Json.objGet fields "text").getD .null
      if text.isNull then .error (.metadataFieldError (idx + 1) src)
      else .ok (pyStr doc_id, text)
    | _ => .error .attributeError

/-- The `DocumentStore.__init__` loop from line index `idx` on: the first
exception aborts the whole construction. -/
def loadFrom (src : String) (idx : Nat) : List MetaLine → Except PyErr (List (String × Json))
  | [] => .ok []
  | l :: rest => do
    let r ← loadLine src idx l
    let rs ← loadFrom src (idx + 1) rest
    .ok (r :: rs)

/-- Construction `DocumentStore.__init__` on an existing metadata source: all lines
load, or the first exception propagates and no store is produced. -/
def DocumentStore.load (src : String) (lines : List MetaLine) : Except PyErr DocumentStore :=
  match loadFrom src 0 lines with
  | .error e => .error e
  | .ok recs => .ok ⟨recs.map Prod.fst, recs.map Prod.snd⟩

/-- Length: `DocumentStore.__len__`. -/
def DocumentStore.size (store : DocumentStore) : Nat := store._ids.length

/-- Python list subscription `xs[i]`: a negative index `i` addresses
element `len(xs) + i`; `IndexError` exactly when the (adjusted) index
still falls outside `[0, len(xs))`. -/
def pyIndex {α : Type} (xs : List α) (i : Int) : Option α :=
  let j := if i < 0 then i + (xs.length : Int) else i
  if j < 0 then none else xs.get? j.toNat

/-- Lookup `DocumentStore.get`: the tuple `(self._ids[doc_idx],
self._texts[doc_idx])`; an `IndexError` from either subscript is
re-raised carrying the requested index and `len(self._ids)`. -/
def DocumentStore.get (store : DocumentStore) (doc_idx : Int) : Except PyErr (String × Json) :=
  match pyIndex store._ids doc_idx, pyIndex store._texts doc_idx with
  | some i, some t => .ok (i, t)
  | _, _ => .error (.indexOutOfRangeError doc_idx store._ids.length)

/-- One result dict built by the `ServiceState.search` loop:
`{"id": doc_id, "text": text, "score": float(score)}`.  `doc_id` comes out
of the store already as a string, `text` is the stored raw value, and
`float(score)` on the engine's float score is the identity. -/
structure SearchHit where
  id : String
  text : Json
  score : ℚ
  deriving Repr

/-- The body of the `ServiceState.search` loop over
`zip(docids, scores)` (`app/state.py`).  Each raw docid has already
passed through `int(...)`, so references arrive here as integers.  The
off-by-one fallback `if doc_idx >= len(self.documents) and doc_idx > 0:
doc_idx -= 1` runs at most once per reference; an `IndexError` escaping
`documents.get` aborts the whole loop. -/
def searchLoop (docs : DocumentStore) : List (Int × ℚ) → Except PyErr (List SearchHit)
  | [] => .ok []
  | (raw_doc_id, score) :: rest => do
    let doc_idx : Int :=
      if (docs.size : Int) ≤ raw_doc_id ∧ 0 < raw_doc_id then raw_doc_id - 1 else raw_doc_id
    let dt ← docs.get doc_idx
    let hits ← searchLoop docs rest
    .ok (⟨dt.1, dt.2, score⟩ :: hits)

/-- Search `ServiceState.search` (`app/state.py`): the engine's ranked output for
the query is `results["docids"][0]` paired with `results["scores"][0]`
(`zip` truncates to the shorter list); each pair is reconciled against the
`DocumentStore` in ranking order. -/
def ServiceState.search (docs : DocumentStore) (docids : List Int) (scores : List ℚ) :
    Except PyErr (List SearchHit) :=
  searchLoop docs (docids.zip scores)

/-- The adjusted position the reconciliation step actually looks up for a
reference, and the resulting per-reference resolution: this is one
iteration of `searchLoop`, split out so theorems can speak about a single
reference. -/
def reconcileOne (docs : DocumentStore) (raw_doc_id : Int) (score : ℚ) :
    Except PyErr SearchHit :=
  let doc_idx : Int :=
    if (docs.size : Int) ≤ raw_doc_id ∧ 0 < raw_doc_id then raw_doc_id - 1 else raw_doc_id
  match docs.get doc_idx with
  | .ok dt => .ok ⟨dt.1, dt.2, score⟩
  | .error e => .error e

/-! ### HTTP boundary (`app/main.py`) -/

/-- The ASCII whitespace characters `str.strip` removes.  (Python strips
further Unicode whitespace; no theorem below involves a non-ASCII query.) -/
def pyIsSpace (c : Char) : Bool :=
  c == ' ' || c == '\t' || c == '\n' || c == '\r' || c == '\x0b' || c == '\x0c'

/-- Python `s.strip()` restricted to ASCII whitespace. -/
def pyStrip (s : String) : String :=
  ⟨((s.toList.dropWhile pyIsSpace).reverse.dropWhile pyIsSpace).reverse⟩

/-- The pydantic constraint on `SearchRequest.k` (`app/main.py`): `k` is
optional, and when supplied must satisfy `ge=1`, `le=100`.  (An ill-typed
`k` is likewise a validation failure; the model carries `k` as an optional
integer.) -/
def SearchRequest.validK (k : Option Int) : Bool :=
  match k with
  | none => true
  | some v => decide (1 ≤ v ∧ v ≤ 100)

/-- What `POST /search` answers: a result list, a 4xx client error with
its status code, or a 500 from an exception escaping the handler. -/
inductive HttpResponse where
  | ok (results : List SearchHit)
  | clientError (status : Nat)
  | serverError
  deriving Repr

/-- How the handler's delegation to `ServiceState.search` surfaces over
HTTP: a result list on success; an escaping exception (e.g. the re-raised
`IndexError`) becomes FastAPI's 500. -/
def respond (r : Except PyErr (List SearchHit)) : HttpResponse :=
  match r with
  | .ok hits => .ok hits
  | .error _ => .serverError

/-- Endpoint `POST /search` end to end: FastAPI first validates the body against
the `SearchRequest` model and answers 422 (its standard handling of a
`RequestValidationError`) when the `k` constraint fails, without running
the handler; the handler (`app/main.py` `search`) then rejects an empty or
all-whitespace query with `HTTPException(400)` before touching the service
state, substitutes the configured default via Python truthiness
(`request.k or state.settings.default_k`), and delegates.  `searchFn`
stands for `ServiceState.search` of the process singleton as a function of
the query and the effective `k`. -/
def post_search (default_k : Int) (searchFn : String → Int → Except PyErr (List SearchHit))
    (query : String) (k : Option Int) : HttpResponse :=
  if ¬ SearchRequest.validK k then .clientError 422
  else if pyStrip query = "" then .clientError 400
  else
    let kk : Int :=
      match k with
      | none => default_k
      | some v => if v = 0 then default_k else v
    respond (searchFn query kk)

/-! ### Process singleton (`app/state.py` `get_state`) -/

/-- One call to `get_state`: the module global `_state` is the cell; when
it is `None` the call runs `ServiceState(Settings())`, whose outcome
(construction touches the filesystem and the engine) is the `ctor`
oracle for this call.  The cell is assigned only from a completed
construction; an exception leaves it `None`.  The call is synchronous
with no await points and both endpoints are coroutines on one event
loop, so calls are serialized and explicit state passing is a faithful
model. -/
def get_state {S E : Type} (ctor : Except E S) (cell : Option S) : Option S × Except E S :=
  match cell with
  | some st => (some st, .ok st)
  | none =>
    match ctor with
    | .ok st => (some st, .ok st)
    | .error e => (none, .error e)

/-- A sequence of `get_state` calls threading the module global, each with
the construction outcome it would see. -/
def get_state_run {S E : Type} (cell : Option S) :
    List (Except E S) → Option S × List (Except E S)
  | [] => (cell, [])
  | ctor :: rest =>
    let step := get_state ctor cell
    let run := get_state_run step.1 rest
    (run.1, step.2 :: run.2)

/-! ### Remote client (`dspy_adapter/colbert.py`) -/

/-- The `SearchResult` dataclass (`dspy_adapter/colbert.py`): `id` goes through
`str(...)`, `score` through `float(...)`; `text` is taken from the JSON
item as is (the dataclass performs no conversion), so it stays `Json`
here. -/
structure SearchResult where
  id : String
  text : Json
  score : ℚ
  deriving Repr

/-- What one `requests` round trip can come back as: a transport-level
exception (`Timeout`, `ConnectionError`, ... — all subclasses of
`requests.RequestException`), or a response with its status code and
decoded JSON body. -/
inductive Transport where
  | transportFailure
  | response (status : Nat) (body : Json)
  deriving Repr

/-- How `ColBERTv2Client.search` can fail: `remoteSearchError` is the
single `requests.RequestException` kind (timeouts, refused connections,
and the `HTTPError` from `raise_for_status`); the remaining constructors
are the untyped Python exceptions the strict deserialization raises. -/
inductive ClientErr where
  | remoteSearchError
  | keyError (key : String)
  | typeError
  | attributeError
  deriving Repr, DecidableEq

/-- Subscription `item[key]` on a decoded JSON value: `KeyError` when a dict lacks the
key, `TypeError` when the value is not a dict at all. -/
def pySubscript (item : Json) (key : String) : Except ClientErr Json :=
  match item with
  | .obj fields =>
    match Json.objGet fields key with
    | some v => .ok v
    | none => .error (.keyError key)
  | _ => .error .typeError

/-- Python `float(x)` on a decoded JSON value.  (`float` also parses
numeric strings; no theorem below feeds a string-typed score, and that
case is left as the failure it would be for a non-numeric string.) -/
def pyFloat : Json → Except ClientErr ℚ
  | .int n => .ok n
  | .float q => .ok q
  | .bool b => .ok (if b then 1 else 0)
  | _ => .error .typeError

/-- One item of the comprehension in `ColBERTv2Client.search`:
`SearchResult(id=str(item["id"]), text=item["text"],
score=float(item["score"]))`, with Python's left-to-right evaluation of
the subscripts. -/
def parseItem (item : Json) : Except ClientErr SearchResult := do
  let rawId ← pySubscript item "id"
  let text ← pySubscript item "text"
  let rawScore ← pySubscript item "score"
  let score ← pyFloat rawScore
  .ok ⟨pyStr rawId, text, score⟩

/-- The comprehension `[SearchResult(...) for item in results]`: items are
parsed left to right and the first exception aborts the whole list. -/
def parseItems : List Json → Except ClientErr (List SearchResult)
  | [] => .ok []
  | it :: rest => do
    let r ← parseItem it
    let rs ← parseItems rest
    .ok (r :: rs)

/-- The method `ColBERTv2Client.search` (`dspy_adapter/colbert.py`) as a function of
the single round trip it performs (the method builds exactly one request
and never retries): a `requests` exception propagates;
`raise_for_status()` raises `HTTPError` for status codes in `[400, 600)`;
otherwise `response.json()` is consulted, `payload.get("results", [])`
defaults a missing key to the empty list (while `.get` on a non-dict body
raises `AttributeError`), and the comprehension parses every present item
strictly, aborting on the first bad one.  (Iterating a non-list
`results` value is collapsed to the `TypeError` of the non-iterable case;
no theorem depends on a non-list `results`.) -/
def ColBERTv2Client.search (roundTrip : Transport) : Except ClientErr (List SearchResult) :=
  match roundTrip with
  | .transportFailure => .error .remoteSearchError
  | .response status body =>
    if 400 ≤ status ∧ status < 600 then .error .remoteSearchError
    else
      match body with
      | .obj fields =>
        match (Json.objGet fields "results").getD (.arr []) with
        | .arr items => parseItems items
        | _ => .error .typeError
      | _ => .error .attributeError

/-- The spec's client scenario: a boundary answering
`{"results":[{"id":"1","text":"t","score":0.42}]}` yields exactly one
`SearchResult("1", "t", 0.42)`. -/
theorem specScenario_remoteClient :
    ColBERTv2Client.search (.response 200 (.obj [("results",
      .arr [.obj [("id", .str "1"), ("text", .str "t"), ("score", .float (42/100))]])]))
      = .ok [⟨"1", .str "t", 42/100⟩] := rfl

/-- The spec's end-to-end scenario: three documents, engine references
`[1, 2]` with scores `[0.9, 0.5]` — a 0-based direct match with no
fallback. -/
theorem specScenario_directMatch :
    ServiceState.search ⟨["a", "b", "c"], [.str "x", .str "y", .str "z"]⟩ [1, 2] [9/10, 1/2]
      = .ok [⟨"b", .str "y", 9/10⟩, ⟨"c", .str "z", 1/2⟩] := rfl

/-- The spec's fallback scenario: the same store with engine reference
`[3]` (one past the valid range, simulating 1-based emission) resolves to
the document at position 2. -/
theorem specScenario_fallback :
    ServiceState.search ⟨["a", "b", "c"], [.str "x", .str "y", .str "z"]⟩ [3] [1]
      = .ok [⟨"c", .str "z", 1⟩] := rfl

/-! ### Helper lemmas -/

theorem pyIndex_nonneg {α : Type} (xs : List α) (i : Int) (h : 0 ≤ i) :
    pyIndex xs i = xs.get? i.toNat := by
  simp only [pyIndex]
  rw [if_neg (by omega), if_neg (by omega)]

theorem pyIndex_neg {α : Type} (xs : List α) (i : Int) (h : i < 0) :
    pyIndex xs i =
      if i + (xs.length : Int) < 0 then none else xs.get? (i + (xs.length : Int)).toNat := by
  simp only [pyIndex]
  rw [if_pos h]

/-- Lookup on a position in `[0, N)`: the positional record. -/
theorem DocumentStore.get_inRange (store : DocumentStore)
    (h : store._ids.length = store._texts.length) (p : Int)
    (h0 : 0 ≤ p) (h1 : p < store.size) :
    store.get p = .ok (store._ids.getD p.toNat "", store._texts.getD p.toNat .null) := by
  have hi : p.toNat < store._ids.length := by
    simp only [DocumentStore.size] at h1; omega
  have ht : p.toNat < store._texts.length := by omega
  simp only [DocumentStore.get, pyIndex_nonneg _ _ h0]
  simp [List.get?_eq_get hi, List.get?_eq_get ht, List.getD_eq_getElem?_getD,
    List.getElem?_eq_getElem, hi, ht]

/-- Lookup on a position in `[-N, 0)`: Python wraparound to
the record at `N + p`. -/
theorem DocumentStore.get_wraparound (store : DocumentStore)
    (h : store._ids.length = store._texts.length) (p : Int)
    (h0 : -(store.size : Int) ≤ p) (h1 : p < 0) :
    store.get p = .ok (store._ids.getD ((store.size : Int) + p).toNat "",
      store._texts.getD ((store.size : Int) + p).toNat .null) := by
  have hi : ((store.size : Int) + p).toNat < store._ids.length := by
    simp only [DocumentStore.size] at h0 ⊢; omega
  have ht : ((store.size : Int) + p).toNat < store._texts.length := by
    simp only [DocumentStore.size] at h0 ⊢; omega
  have e1 : p + (store._ids.length : Int) = (store.size : Int) + p := by
    simp only [DocumentStore.size]; omega
  have e2 : p + (store._texts.length : Int) = (store.size : Int) + p := by
    simp only [DocumentStore.size]; omega
  simp only [DocumentStore.get, pyIndex_neg _ _ h1, e1, e2]
  rw [if_neg (by simp only [DocumentStore.size] at h0 ⊢; omega),
    if_neg (by simp only [DocumentStore.size] at h0 ⊢; omega)]
  simp [List.get?_eq_get hi, List.get?_eq_get ht, List.getD_eq_getElem?_getD,
    List.getElem?_eq_getElem, hi, ht]

/-- Lookup outside `[-N, N)`: the re-raised `IndexError`. -/
theorem DocumentStore.get_outOfRange (store : DocumentStore)
    (h : store._ids.length = store._texts.length) (p : Int)
    (hout : p < -(store.size : Int) ∨ (store.size : Int) ≤ p) :
    store.get p = .error (.indexOutOfRangeError p store.size) := by
  rcases hout with hlt | hge
  · have h1 : p < 0 := by simp only [DocumentStore.size] at hlt; omega
    simp only [DocumentStore.get, pyIndex_neg _ _ h1]
    rw [if_pos (by simp only [DocumentStore.size] at hlt ⊢; omega),
      if_pos (by simp only [DocumentStore.size] at hlt ⊢; omega)]
    rfl
  · have h0 : 0 ≤ p := by simp only [DocumentStore.size] at hge; omega
    have hi : store._ids.length ≤ p.toNat := by simp only [DocumentStore.size] at hge; omega
    have ht : store._texts.length ≤ p.toNat := by omega
    simp only [DocumentStore.get, pyIndex_nonneg _ _ h0]
    rw [List.get?_eq_none.mpr hi, List.get?_eq_none.mpr ht]
    rfl

theorem searchLoop_cons (docs : DocumentStore) (pr : Int × ℚ) (prs : List (Int × ℚ)) :
    searchLoop docs (pr :: prs) =
      match reconcileOne docs pr.1 pr.2 with
      | .ok hit => (searchLoop docs prs).map (fun hits => hit :: hits)
      | .error e => .error e := by
  obtain ⟨raw, score⟩ := pr
  simp only [searchLoop, reconcileOne]
  cases docs.get (if (docs.size : Int) ≤ raw ∧ 0 < raw then raw - 1 else raw) with
  | ok dt => cases searchLoop docs prs <;> rfl
  | error e => rfl

/-- A successful pass of the `ServiceState.search` loop: one hit per
engine pair, in the engine's order. -/
theorem searchLoop_ok (docs : DocumentStore) (prs : List (Int × ℚ))
    (hs : List SearchHit) (hok : searchLoop docs prs = .ok hs) :
    hs.length = prs.length ∧
    ∀ j, j < prs.length →
      reconcileOne docs (prs.getD j (0, 0)).1 (prs.getD j (0, 0)).2
        = .ok (hs.getD j ⟨"", .null, 0⟩) := by
  induction prs generalizing hs with
  | nil =>
    simp only [searchLoop] at hok
    cases hok
    simp
  | cons pr rest ih =>
    rw [searchLoop_cons] at hok
    cases hrec : reconcileOne docs pr.1 pr.2 with
    | error e => rw [hrec] at hok; cases hok
    | ok hit =>
      rw [hrec] at hok
      cases hrest : searchLoop docs rest with
      | error e => rw [hrest] at hok; cases hok
      | ok tl =>
        rw [hrest] at hok
        cases hok
        obtain ⟨ihlen, ihnth⟩ := ih tl hrest
        refine ⟨by simp [ihlen], ?_⟩
        intro j hj
        cases j with
        | zero => simpa using hrec
        | succ j =>
          simp only [List.getD_cons_succ]
          exact ihnth j (by simpa using hj)

/-- An unresolvable reference anywhere in the engine output makes the
whole loop raise: no partial hit list survives. -/
theorem searchLoop_aborts (docs : DocumentStore) (prs : List (Int × ℚ))
    (pr : Int × ℚ) (hmem : pr ∈ prs)
    (hbad : ∀ hit, reconcileOne docs pr.1 pr.2 ≠ .ok hit) :
    ∃ e, searchLoop docs prs = .error e := by
  induction prs with
  | nil => cases hmem
  | cons q rest ih =>
    rw [searchLoop_cons]
    rcases List.mem_cons.mp hmem with rfl | hmem'
    · cases hq : reconcileOne docs pr.1 pr.2 with
      | error e => exact ⟨e, rfl⟩
      | ok hit => exact absurd hq (hbad hit)
    · cases hq : reconcileOne docs q.1 q.2 with
      | error e => exact ⟨e, rfl⟩
      | ok hit =>
        obtain ⟨e, he⟩ := ih hmem'
        exact ⟨e, by rw [he]; rfl⟩

theorem reconcileOne_inRange (docs : DocumentStore)
    (hlen : docs._ids.length = docs._texts.length) (r : Int) (s : ℚ)
    (h0 : 0 ≤ r) (h1 : r < (docs.size : Int)) :
    reconcileOne docs r s
      = .ok ⟨docs._ids.getD r.toNat "", docs._texts.getD r.toNat .null, s⟩ := by
  simp only [reconcileOne]
  rw [if_neg (by omega), docs.get_inRange hlen r h0 h1]

theorem reconcileOne_fallback (docs : DocumentStore) (r : Int) (s : ℚ)
    (hge : (docs.size : Int) ≤ r) (hpos : 0 < r) :
    reconcileOne docs r s =
      match docs.get (r - 1) with
      | .ok dt => .ok ⟨dt.1, dt.2, s⟩
      | .error e => .error e := by
  simp only [reconcileOne]
  rw [if_pos ⟨hge, hpos⟩]

theorem reconcileOne_residual (docs : DocumentStore)
    (hlen : docs._ids.length = docs._texts.length) (r : Int) (s : ℚ)
    (hgt : (docs.size : Int) + 1 ≤ r) :
    reconcileOne docs r s = .error (.indexOutOfRangeError (r - 1) docs.size) := by
  rw [reconcileOne_fallback docs r s (by omega) (by omega),
    docs.get_outOfRange hlen (r - 1) (Or.inr (by omega))]

theorem reconcileOne_negWrap (docs : DocumentStore)
    (hlen : docs._ids.length = docs._texts.length) (r : Int) (s : ℚ)
    (h0 : -(docs.size : Int) ≤ r) (h1 : r < 0) :
    reconcileOne docs r s
      = .ok ⟨docs._ids.getD ((docs.size : Int) + r).toNat "",
          docs._texts.getD ((docs.size : Int) + r).toNat .null, s⟩ := by
  simp only [reconcileOne]
  rw [if_neg (by omega), docs.get_wraparound hlen r h0 h1]

theorem reconcileOne_negOut (docs : DocumentStore)
    (hlen : docs._ids.length = docs._texts.length) (r : Int) (s : ℚ)
    (hlt : r < -(docs.size : Int)) :
    reconcileOne docs r s = .error (.indexOutOfRangeError r docs.size) := by
  simp only [reconcileOne]
  rw [if_neg (by omega), docs.get_outOfRange hlen r (Or.inl hlt)]

/-! ### Claim theorems -/

/-- A one-document store as `DocumentStore.load` produces it, used to
exhibit the behaviour of `ServiceState.search` on a negative reference. -/
def docsC1 : DocumentStore := ⟨["a"], [.str "x"]⟩

/-- C1 counterexample: for the loaded one-document store and the engine
output `[(-1, 1.0)]`, the reference `-1` is out of range for the store
(`[0, 1)`) and not strictly positive, so by the claim the search must
abort with `IndexOutOfRangeError`; instead `ServiceState.search` succeeds
and returns the document (Python's negative indexing wraps `-1` to the
last position). -/
theorem C1_counterexample :
    DocumentStore.load "documents.jsonl"
        [.value (.obj [("id", .str "a"), ("text", .str "x")])] = .ok docsC1
      ∧ ServiceState.search docsC1 [-1] [1] = .ok [⟨"a", .str "x", 1⟩]
      ∧ docsC1.size = 1
      ∧ (-1 : Int) < 0 :=
  ⟨rfl, rfl, rfl, by decide⟩

/-- C1 (amended): `ServiceState.search` zips the engine's docids with its
scores and resolves them in ranking order.  A reference in `[0, N)` is
used directly; a reference that is `≥ N` and strictly positive is
decremented exactly once and retried, and if it is still `≥ N` after the
single decrement the whole search aborts with `IndexOutOfRangeError`; a
negative reference, however, does not abort when it is `≥ -N`: Python
list indexing resolves it to the document at `N + reference`, and only a
reference `< -N` aborts the search.  On success there is exactly one hit
per engine pair, in the engine's order, with no re-sorting; on any
unresolvable reference no partial hit list is returned. -/
theorem C1_search_reconciliation (docs : DocumentStore)
    (hlen : docs._ids.length = docs._texts.length)
    (docids : List Int) (scores : List ℚ) :
    (ServiceState.search docs docids scores = searchLoop docs (docids.zip scores))
    ∧ (∀ r s, 0 ≤ r → r < (docs.size : Int) →
        reconcileOne docs r s
          = .ok ⟨docs._ids.getD r.toNat "", docs._texts.getD r.toNat .null, s⟩)
    ∧ (∀ r s, (docs.size : Int) ≤ r → 0 < r →
        reconcileOne docs r s =
          match docs.get (r - 1) with
          | .ok dt => .ok ⟨dt.1, dt.2, s⟩
          | .error e => .error e)
    ∧ (∀ r s, (docs.size : Int) + 1 ≤ r →
        reconcileOne docs r s = .error (.indexOutOfRangeError (r - 1) docs.size))
    ∧ (∀ r s, -(docs.size : Int) ≤ r → r < 0 →
        reconcileOne docs r s
          = .ok ⟨docs._ids.getD ((docs.size : Int) + r).toNat "",
              docs._texts.getD ((docs.size : Int) + r).toNat .null, s⟩)
    ∧ (∀ r s, r < -(docs.size : Int) →
        reconcileOne docs r s = .error (.indexOutOfRangeError r docs.size))
    ∧ (∀ hs, searchLoop docs (docids.zip scores) = .ok hs →
        hs.length = (docids.zip scores).length ∧
        ∀ j, j < (docids.zip scores).length →
          reconcileOne docs ((docids.zip scores).getD j (0, 0)).1
              ((docids.zip scores).getD j (0, 0)).2
            = .ok (hs.getD j ⟨"", .null, 0⟩))
    ∧ (∀ pr, pr ∈ docids.zip scores →
        (∀ hit, reconcileOne docs pr.1 pr.2 ≠ .ok hit) →
        ∃ e, searchLoop docs (docids.zip scores) = .error e) :=
  ⟨rfl,
   fun r s => reconcileOne_inRange docs hlen r s,
   fun r s => reconcileOne_fallback docs r s,
   fun r s => reconcileOne_residual docs hlen r s,
   fun r s => reconcileOne_negWrap docs hlen r s,
   fun r s => reconcileOne_negOut docs hlen r s,
   fun hs => searchLoop_ok docs (docids.zip scores) hs,
   fun pr => searchLoop_aborts docs (docids.zip scores) pr⟩

/-- The spec's three-document end-to-end store. -/
def docsThree : DocumentStore := ⟨["a", "b", "c"], [.str "x", .str "y", .str "z"]⟩

/-- C1 witness: the amended theorem applied to the spec's fallback
scenario — reference `3` against the three-document store is decremented
once and resolves to the document at position `2`. -/
theorem C1_search_reconciliation_witness :
    reconcileOne docsThree 3 1 = .ok ⟨"c", .str "z", 1⟩ := by
  have h := (C1_search_reconciliation docsThree rfl [3] [1]).2.2.1 3 1 (by decide) (by decide)
  rw [h]
  rfl

/-- C2 counterexample: a two-document store as loaded from metadata;
`get(-1)` is a negative position, which the claim says must fail with
`IndexOutOfRangeError`, yet the code returns the last document (Python
negative list indexing). -/
def storeC2 : DocumentStore := ⟨["d0", "d1"], [.str "t0", .str "t1"]⟩

theorem C2_counterexample :
    DocumentStore.load "meta.jsonl"
        [.value (.obj [("id", .str "d0"), ("text", .str "t0")]),
         .value (.obj [("id", .str "d1"), ("text", .str "t1")])] = .ok storeC2
      ∧ storeC2.get (-1) = .ok ("d1", .str "t1")
      ∧ storeC2.size = 2
      ∧ (-1 : Int) < 0 :=
  ⟨rfl, rfl, rfl, by decide⟩

/-- C2 (amended): for a loaded `DocumentStore` of length `N`,
`DocumentStore.get p` fails with `IndexOutOfRangeError` if and only if
`p < -N` or `p ≥ N`; a position in `[0, N)` returns the positional
record, and a negative position in `[-N, 0)` does not fail but returns
the record at `N + p` (Python negative indexing). -/
theorem C2_get_bounds (store : DocumentStore)
    (hlen : store._ids.length = store._texts.length) (p : Int) :
    (store.get p = .error (.indexOutOfRangeError p store.size)
        ↔ (p < -(store.size : Int) ∨ (store.size : Int) ≤ p))
    ∧ (0 ≤ p → p < (store.size : Int) →
        store.get p = .ok (store._ids.getD p.toNat "", store._texts.getD p.toNat .null))
    ∧ (-(store.size : Int) ≤ p → p < 0 →
        store.get p = .ok (store._ids.getD ((store.size : Int) + p).toNat "",
          store._texts.getD ((store.size : Int) + p).toNat .null)) := by
  refine ⟨⟨?_, store.get_outOfRange hlen p⟩,
    store.get_inRange hlen p, store.get_wraparound hlen p⟩
  intro hErr
  by_contra hcon
  push_neg at hcon
  rcases le_or_lt 0 p with h0 | h0
  · rw [store.get_inRange hlen p h0 (by omega)] at hErr
    cases hErr
  · rw [store.get_wraparound hlen p (by omega) h0] at hErr
    cases hErr

/-- C2 witness: the amended theorem applied to a concrete store — a
position past the end fails with the re-raised `IndexError`. -/
theorem C2_get_bounds_witness :
    (DocumentStore.mk ["a"] [.str "x"]).get 5
      = .error (.indexOutOfRangeError 5 1) :=
  (C2_get_bounds ⟨["a"], [.str "x"]⟩ rfl 5).1.mpr (Or.inr (by decide))

/-- A metadata line that is well formed in the spec's sense (§6): a JSON
object with a required string-valued `text` and an optional string `id`. -/
def WellFormedLine (l : MetaLine) : Prop :=
  ∃ fields t, l = .value (.obj fields)
    ∧ Json.objGet fields "text" = some (.str t)
    ∧ (Json.objGet fields "id" = none ∨ ∃ s, Json.objGet fields "id" = some (.str s))

/-- Spec-side reading of a well-formed line's id: the line's own `id`
when present, otherwise the 0-based line index `i` coerced to its string
form.  (The catch-all branches are never reached on well-formed lines.) -/
def specLineId (l : MetaLine) (i : Nat) : String :=
  match l with
  | .value (.obj fields) =>
    match Json.objGet fields "id" with
    | some (.str s) => s
    | none => toString i
    | some _ => ""
  | _ => ""

/-- Spec-side reading of a well-formed line's text. -/
def specLineText (l : MetaLine) : Json :=
  match l with
  | .value (.obj fields) => (Json.objGet fields "text").getD .null
  | _ => .null

theorem toString_intOfNat (n : Nat) : toString (n : Int) = toString n := rfl

theorem loadLine_wf (src : String) (idx : Nat) (l : MetaLine) (hwf : WellFormedLine l) :
    loadLine src idx l = .ok (specLineId l idx, specLineText l) := by
  obtain ⟨fields, t, rfl, htext, hid⟩ := hwf
  rcases hid with hid | ⟨s, hid⟩ <;>
    simp [loadLine, specLineId, specLineText, htext, hid, Json.isNull, pyStr, toString_intOfNat]

/-- The records `DocumentStore.__init__` accumulates over a block of
well-formed lines starting at index `idx`. -/
def specRecs (idx : Nat) : List MetaLine → List (String × Json)
  | [] => []
  | l :: rest => (specLineId l idx, specLineText l) :: specRecs (idx + 1) rest

theorem loadFrom_cons (src : String) (idx : Nat) (l : MetaLine) (rest : List MetaLine) :
    loadFrom src idx (l :: rest) =
      match loadLine src idx l with
      | .ok r => (loadFrom src (idx + 1) rest).map (fun rs => r :: rs)
      | .error e => .error e := by
  simp only [loadFrom]
  cases loadLine src idx l with
  | ok r => cases loadFrom src (idx + 1) rest <;> rfl
  | error e => rfl

theorem loadFrom_wf (src : String) (idx : Nat) (lines : List MetaLine)
    (hwf : ∀ l ∈ lines, WellFormedLine l) :
    loadFrom src idx lines = .ok (specRecs idx lines) := by
  induction lines generalizing idx with
  | nil => rfl
  | cons l rest ih =>
    rw [loadFrom_cons, loadLine_wf src idx l (hwf l (by simp)),
      ih (idx + 1) (fun l' hl' => hwf l' (by simp [hl']))]
    rfl

theorem specRecs_length (idx : Nat) (lines : List MetaLine) :
    (specRecs idx lines).length = lines.length := by
  induction lines generalizing idx with
  | nil => rfl
  | cons l rest ih => simp [specRecs, ih]

theorem specRecs_getD (idx j : Nat) (lines : List MetaLine) (hj : j < lines.length) :
    (specRecs idx lines).getD j ("", .null)
      = (specLineId (lines.getD j .badJson) (idx + j),
         specLineText (lines.getD j .badJson)) := by
  induction lines generalizing idx j with
  | nil => cases hj
  | cons l rest ih =>
    cases j with
    | zero => simp [specRecs]
    | succ j =>
      simp only [specRecs, List.getD_cons_succ]
      rw [ih (idx + 1) j (by simpa using hj)]
      have e : idx + 1 + j = idx + (j + 1) := by omega
      rw [e]

theorem getD_map_of_lt {α β : Type} (f : α → β) (l : List α) (j : Nat) (d : α)
    (hj : j < l.length) : (l.map f).getD j (f d) = f (l.getD j d) := by
  simp [List.getD_eq_getElem?_getD, List.getElem?_map, List.getElem?_eq_getElem hj]

/-- C3 (confirmed): a metadata source of well-formed lines loads, the
store has one record per line, and `get(i)` returns the i-th line's id
and text, a missing id defaulting to the 0-based line index as a string. -/
theorem C3_load_wellFormed (src : String) (lines : List MetaLine)
    (hwf : ∀ l ∈ lines, WellFormedLine l) :
    ∃ store, DocumentStore.load src lines = .ok store
      ∧ store.size = lines.length
      ∧ store._ids.length = store._texts.length
      ∧ ∀ i, i < lines.length →
          store.get (i : Int)
            = .ok (specLineId (lines.getD i .badJson) i,
                   specLineText (lines.getD i .badJson)) := by
  refine ⟨⟨(specRecs 0 lines).map Prod.fst, (specRecs 0 lines).map Prod.snd⟩, ?_, ?_, by simp, ?_⟩
  · simp [DocumentStore.load, loadFrom_wf src 0 lines hwf]
  · simp [DocumentStore.size, specRecs_length]
  · intro i hi
    have hsz : (⟨(specRecs 0 lines).map Prod.fst, (specRecs 0 lines).map Prod.snd⟩ :
        DocumentStore).size = lines.length := by
      simp [DocumentStore.size, specRecs_length]
    have hrec : i < (specRecs 0 lines).length := by rw [specRecs_length]; exact hi
    rw [DocumentStore.get_inRange _ (by simp) (i : Int) (by omega)
      (by rw [hsz]; exact_mod_cast hi)]
    have e1 : ((specRecs 0 lines).map Prod.fst).getD (i : Int).toNat ""
        = (specRecs 0 lines |>.getD (i : Int).toNat ("", Json.null)).1 :=
      getD_map_of_lt Prod.fst _ _ ("", Json.null) (by simpa using hrec)
    have e2 : ((specRecs 0 lines).map Prod.snd).getD (i : Int).toNat Json.null
        = (specRecs 0 lines |>.getD (i : Int).toNat ("", Json.null)).2 :=
      getD_map_of_lt Prod.snd _ _ ("", Json.null) (by simpa using hrec)
    simp only [e1, e2]
    rw [show (i : Int).toNat = i from by simp, specRecs_getD 0 i lines hi]
    simp

def linesC3 : List MetaLine :=
  [.value (.obj [("id", .str "a"), ("text", .str "x")]),
   .value (.obj [("text", .str "y")])]

/-- C3 witness: the theorem applied to a two-line source whose second
line has no id — the store loads both records and the missing id becomes
the string of the line index. -/
theorem C3_load_wellFormed_witness :
    DocumentStore.load "documents.jsonl" linesC3 = .ok ⟨["a", "1"], [.str "x", .str "y"]⟩
      ∧ (DocumentStore.mk ["a", "1"] [.str "x", .str "y"]).get 1 = .ok ("1", .str "y") := by
  have hwf : ∀ l ∈ linesC3, WellFormedLine l := by
    intro l hl
    rcases List.mem_cons.mp hl with rfl | hl'
    · exact ⟨_, "x", rfl, rfl, Or.inr ⟨"a", rfl⟩⟩
    · rcases List.mem_cons.mp hl' with rfl | hl''
      · exact ⟨_, "y", rfl, rfl, Or.inl rfl⟩
      · cases hl''
  obtain ⟨store, hload, _, _, hget⟩ := C3_load_wellFormed "documents.jsonl" linesC3 hwf
  have hstore : store = ⟨["a", "1"], [.str "x", .str "y"]⟩ := by
    have : DocumentStore.load "documents.jsonl" linesC3
        = .ok (⟨["a", "1"], [.str "x", .str "y"]⟩ : DocumentStore) := rfl
    rw [this] at hload
    cases hload
    rfl
  refine ⟨by rw [hstore] at hload; exact hload, ?_⟩
  have := hget 1 (by decide)
  rw [hstore] at this
  exact this

/-- A decoded record whose required text field is missing, or is a JSON
null (which `record.get("text")` equally turns into Python `None`). -/
def MissingText (l : MetaLine) : Prop :=
  ∃ fields, l = .value (.obj fields)
    ∧ (Json.objGet fields "text" = none ∨ Json.objGet fields "text" = some .null)

theorem loadLine_missingText (src : String) (idx : Nat) (l : MetaLine)
    (hm : MissingText l) :
    loadLine src idx l = .error (.metadataFieldError (idx + 1) src) := by
  obtain ⟨fields, rfl, h⟩ := hm
  rcases h with h | h <;> simp [loadLine, h, Json.isNull]

theorem loadLine_badJson (src : String) (idx : Nat) :
    loadLine src idx .badJson = .error (.metadataFormatError (idx + 1) src) := rfl

theorem loadFrom_firstError (src : String) (lines : List MetaLine) (idx j : Nat)
    (hj : j < lines.length)
    (hpre : ∀ i, i < j → ∃ r, loadLine src (idx + i) (lines.getD i .badJson) = .ok r)
    (e : PyErr) (he : loadLine src (idx + j) (lines.getD j .badJson) = .error e) :
    loadFrom src idx lines = .error e := by
  induction lines generalizing idx j with
  | nil => cases hj
  | cons l rest ih =>
    cases j with
    | zero =>
      simp only [List.getD_cons_zero, Nat.add_zero] at he
      rw [loadFrom_cons, he]
    | succ j =>
      obtain ⟨r, hr⟩ := hpre 0 (Nat.succ_pos j)
      simp only [List.getD_cons_zero, Nat.add_zero] at hr
      have hpre' : ∀ i, i < j → ∃ r, loadLine src (idx + 1 + i) (rest.getD i .badJson) = .ok r := by
        intro i hi
        have h := hpre (i + 1) (by omega)
        rw [show idx + (i + 1) = idx + 1 + i from by omega] at h
        simpa using h
      have he' : loadLine src (idx + 1 + j) (rest.getD j .badJson) = .error e := by
        rw [show idx + 1 + j = idx + (j + 1) from by omega]
        simpa using he
      rw [loadFrom_cons, hr, ih (idx + 1) j (by simpa using hj) hpre' he']
      rfl

theorem loadFrom_ok_lines (src : String) (lines : List MetaLine) (idx : Nat)
    (rs : List (String × Json)) (h : loadFrom src idx lines = .ok rs) :
    ∀ j, j < lines.length → ∃ r, loadLine src (idx + j) (lines.getD j .badJson) = .ok r := by
  induction lines generalizing idx rs with
  | nil => intro j hj; cases hj
  | cons l rest ih =>
    intro j hj
    rw [loadFrom_cons] at h
    cases hl : loadLine src idx l with
    | error e => rw [hl] at h; cases h
    | ok r =>
      rw [hl] at h
      cases hrest : loadFrom src (idx + 1) rest with
      | error e => rw [hrest] at h; cases h
      | ok rs' =>
        cases j with
        | zero => exact ⟨r, by simpa using hl⟩
        | succ j =>
          have := ih (idx + 1) rs' hrest j (by simpa using hj)
          obtain ⟨r', hr'⟩ := this
          refine ⟨r', ?_⟩
          rw [show idx + (j + 1) = idx + 1 + j from by omega]
          simpa using hr'

/-- C4 (confirmed): construction is all-or-nothing.  If the first
offending line `j` (0-based; all lines before it load) is invalid JSON,
the whole load fails with the `ValueError` naming line `j + 1` and the
source; if it decodes but lacks `text` (or carries a null `text`), the
load fails with the missing-text `ValueError` naming line `j + 1`; and
whenever any line at all is invalid JSON or lacks `text` — wherever it
sits, including the last line — no store is produced. -/
theorem C4_load_allOrNothing (src : String) (lines : List MetaLine) (j : Nat)
    (hj : j < lines.length) :
    ((∀ i, i < j → ∃ r, loadLine src i (lines.getD i .badJson) = .ok r) →
      lines.getD j .badJson = .badJson →
      DocumentStore.load src lines = .error (.metadataFormatError (j + 1) src))
    ∧ ((∀ i, i < j → ∃ r, loadLine src i (lines.getD i .badJson) = .ok r) →
      MissingText (lines.getD j .badJson) →
      DocumentStore.load src lines = .error (.metadataFieldError (j + 1) src))
    ∧ ((lines.getD j .badJson = .badJson ∨ MissingText (lines.getD j .badJson)) →
      ∀ store, DocumentStore.load src lines ≠ .ok store) := by
  have hzero : ∀ i : Nat, 0 + i = i := fun i => Nat.zero_add i
  refine ⟨?_, ?_, ?_⟩
  · intro hpre hbad
    have := loadFrom_firstError src lines 0 j hj
      (fun i hi => by rw [hzero]; exact hpre i hi)
      (.metadataFormatError (j + 1) src)
      (by rw [hzero, hbad]; rfl)
    simp [DocumentStore.load, this]
  · intro hpre hmiss
    have := loadFrom_firstError src lines 0 j hj
      (fun i hi => by rw [hzero]; exact hpre i hi)
      (.metadataFieldError (j + 1) src)
      (by rw [hzero]; exact loadLine_missingText src j _ hmiss)
    simp [DocumentStore.load, this]
  · intro hbad store hok
    simp only [DocumentStore.load] at hok
    cases hfrom : loadFrom src 0 lines with
    | error e => rw [hfrom] at hok; cases hok
    | ok rs =>
      obtain ⟨r, hr⟩ := loadFrom_ok_lines src lines 0 rs hfrom j hj
      rw [hzero] at hr
      rcases hbad with hb | hm
      · rw [hb] at hr
        rw [loadLine_badJson] at hr
        cases hr
      · rw [loadLine_missingText src j _ hm] at hr
        cases hr

def linesC4 : List MetaLine :=
  [.value (.obj [("id", .str "a"), ("text", .str "x")]),
   .value (.obj [("id", .str "b")])]

/-- C4 witness: the theorem applied to a source whose last line lacks
`text` — the whole load fails with the missing-text error naming line 2. -/
theorem C4_load_allOrNothing_witness :
    DocumentStore.load "meta.jsonl" linesC4 = .error (.metadataFieldError 2 "meta.jsonl") := by
  have h := (C4_load_allOrNothing "meta.jsonl" linesC4 1 (by decide)).2.1
  exact h
    (fun i hi => by
      have : i = 0 := by omega
      subst this
      exact ⟨("a", .str "x"), rfl⟩)
    ⟨[("id", .str "b")], rfl, Or.inl rfl⟩

/-- Whether an exception belongs to the spec's metadata error taxonomy
(`MetadataFormatError` or `MetadataFieldError`). -/
def PyErr.inMetadataTaxonomy : PyErr → Bool
  | .metadataFormatError _ _ => true
  | .metadataFieldError _ _ => true
  | _ => false

/-- C9 (confirmed): a line that is valid JSON but not an object — here
the bare number `5` — makes `DocumentStore` construction fail with the
`AttributeError` from calling `.get` on the non-dict value, an error
outside the metadata taxonomy. -/
theorem C9_nonObjectLine :
    DocumentStore.load "documents.jsonl" [.value (.int 5)] = .error .attributeError
      ∧ PyErr.inMetadataTaxonomy .attributeError = false :=
  ⟨rfl, rfl⟩

theorem pyStrip_eq_empty (s : String) (h : ∀ c ∈ s.toList, pyIsSpace c = true) :
    pyStrip s = "" := by
  have h1 : s.data.dropWhile pyIsSpace = [] :=
    List.dropWhile_eq_nil_iff.mpr (fun x hx => h x hx)
  simp [pyStrip, String.toList, h1]

/-- C5 counterexample: an empty query together with an out-of-range `k`
is answered by the pydantic validation layer with 422, not with the 400
the claim promises for every `k`. -/
theorem C5_counterexample :
    post_search 10 (fun _ _ => .ok []) "" (some 0) = .clientError 422
      ∧ ((422 : Nat) == 400) = false :=
  ⟨rfl, rfl⟩

/-- C5 (amended): an empty or all-whitespace query never reaches
`ServiceState.search` (the response is independent of the search
function); it is rejected with the handler's 400 whenever the supplied
`k` passes validation, and with the validation layer's 422 when `k` is
also out of range. -/
theorem C5_emptyQuery (default_k : Int)
    (f g : String → Int → Except PyErr (List SearchHit))
    (query : String) (k : Option Int)
    (hq : ∀ c ∈ query.toList, pyIsSpace c = true) :
    post_search default_k f query k = post_search default_k g query k
    ∧ (SearchRequest.validK k = true → post_search default_k f query k = .clientError 400)
    ∧ (SearchRequest.validK k = false → post_search default_k f query k = .clientError 422) := by
  have hs := pyStrip_eq_empty query hq
  refine ⟨?_, ?_, ?_⟩
  · by_cases hk : SearchRequest.validK k <;> simp [post_search, hk, hs]
  · intro hk; simp [post_search, hk, hs]
  · intro hk; simp [post_search, hk]

/-- C5 witness: the amended theorem at the spec's all-whitespace query
with a valid `k`. -/
theorem C5_emptyQuery_witness :
    post_search 10 (fun _ _ => .ok []) "   " (some 5) = .clientError 400 :=
  (C5_emptyQuery 10 (fun _ _ => .ok []) (fun _ _ => .ok []) "   " (some 5) (by decide)).2.1 rfl

/-- C6 counterexample: `k = 0` with a non-empty query is rejected by the
pydantic validation layer with 422, not the 400 the claim states. -/
theorem C6_counterexample :
    post_search 10 (fun _ _ => .ok []) "hello" (some 0) = .clientError 422
      ∧ ((422 : Nat) == 400) = false :=
  ⟨rfl, rfl⟩

/-- C6 (amended): a supplied `k` outside `[1, 100]` is rejected with the
validation layer's 422 before the handler — and hence before
`ServiceState` — runs (the response is independent of the search
function); `k = 1` and `k = 100` pass validation and are handed to
`ServiceState.search` unchanged; an omitted `k` is replaced by the
configured `default_k` before delegating. -/
theorem C6_kBounds (default_k : Int)
    (f g : String → Int → Except PyErr (List SearchHit)) (query : String) (v : Int) :
    (¬ (1 ≤ v ∧ v ≤ 100) →
      post_search default_k f query (some v) = .clientError 422
      ∧ post_search default_k f query (some v) = post_search default_k g query (some v))
    ∧ ((v = 1 ∨ v = 100) → pyStrip query ≠ "" →
      post_search default_k f query (some v) = respond (f query v))
    ∧ (pyStrip query ≠ "" →
      post_search default_k f query none = respond (f query default_k)) := by
  refine ⟨?_, ?_, ?_⟩
  · intro hbad
    have hk : SearchRequest.validK (some v) = false := by
      simp [SearchRequest.validK, decide_eq_false hbad]
    exact ⟨by simp [post_search, hk], by simp [post_search, hk]⟩
  · intro hv hq
    rcases hv with rfl | rfl <;> simp [post_search, SearchRequest.validK, hq]
  · intro hq
    simp [post_search, SearchRequest.validK, hq]

/-- C6 witness: the amended theorem at `k = 101` (rejected with 422) and
at `k = 1` (passed through to the search function). -/
theorem C6_kBounds_witness :
    post_search 10 (fun _ _ => .ok []) "hello" (some 101) = .clientError 422
      ∧ post_search 10 (fun _ _ => .ok [⟨"a", .str "x", 1⟩]) "hello" (some 1)
          = .ok [⟨"a", .str "x", 1⟩] := by
  constructor
  · exact ((C6_kBounds 10 (fun _ _ => .ok []) (fun _ _ => .ok []) "hello" 101).1
      (by decide)).1
  · exact (C6_kBounds 10 (fun _ _ => .ok [⟨"a", .str "x", 1⟩])
      (fun _ _ => .ok []) "hello" 1).2.1 (Or.inl rfl) (by decide)

theorem get_state_run_cached {S E : Type} (s : S) (l : List (Except E S)) :
    get_state_run (some s) l = (some s, l.map (fun _ => .ok s)) := by
  induction l with
  | nil => rfl
  | cons o rest ih => simp [get_state_run, get_state, ih]

theorem get_state_run_failedPrefix {S E : Type} (pre rest : List (Except E S)) :
    (∀ o ∈ pre, ∀ t : S, o ≠ .ok t) →
    get_state_run (none : Option S) (pre ++ rest)
      = ((get_state_run (none : Option S) rest).1,
         pre ++ (get_state_run (none : Option S) rest).2) := by
  induction pre with
  | nil => intro _; simp
  | cons o pre' ih =>
    intro hpre
    cases o with
    | ok t => exact absurd rfl (hpre (.ok t) (by simp) t)
    | error e =>
      simp [get_state_run, get_state, ih (fun o ho t => hpre o (by simp [ho]) t)]

/-- C8 (confirmed): over any sequence of `get_state` calls starting from
the empty module global — each call carrying the outcome its
`ServiceState(Settings())` construction would have — a prefix of failing
constructions publishes nothing and each such call re-raises its own
error (so the next call retries from scratch); the first successful
construction is published; and every call after it returns that same
instance with its construction outcome ignored (so at most the one
instance is ever created).  A call that finds the cell filled returns the
cached instance unconditionally, and a failing call on an empty cell
leaves the cell empty. -/
theorem C8_singleton {S E : Type} (pre post : List (Except E S)) (s : S)
    (hpre : ∀ o ∈ pre, ∀ t : S, o ≠ .ok t) :
    get_state_run (none : Option S) (pre ++ .ok s :: post)
        = (some s, pre ++ .ok s :: post.map (fun _ => .ok s))
    ∧ (∀ (ctor : Except E S) (st : S), get_state ctor (some st) = (some st, .ok st))
    ∧ (∀ e : E, get_state (.error e) (none : Option S) = (none, .error e)) := by
  refine ⟨?_, fun ctor st => rfl, fun e => rfl⟩
  rw [get_state_run_failedPrefix pre (.ok s :: post) hpre]
  simp [get_state_run, get_state, get_state_run_cached]

/-- C8 witness: a failed construction, a successful one publishing `7`,
then a failing oracle and a different successful oracle — both later
calls still return the published `7`. -/
theorem C8_singleton_witness :
    get_state_run (none : Option Nat)
        [Except.error "disk", Except.ok 7, Except.error "disk", Except.ok 9]
      = (some 7, [Except.error "disk", Except.ok 7, Except.ok 7, Except.ok 7]) := by
  have h := (C8_singleton (S := Nat) (E := String) [.error "disk"] [.error "disk", .ok 9] 7
    (by intro o ho t h; simp at ho; subst ho; cases h)).1
  simpa using h

theorem parseItems_cons (it : Json) (rest : List Json) :
    parseItems (it :: rest) =
      match parseItem it with
      | .ok r => (parseItems rest).map (fun rs => r :: rs)
      | .error e => .error e := by
  simp only [parseItems]
  cases parseItem it with
  | ok r => cases parseItems rest <;> rfl
  | error e => rfl

theorem parseItems_ok (items : List Json)
    (h : ∀ i ∈ items, ∃ r, parseItem i = .ok r) :
    ∃ rs, parseItems items = .ok rs ∧ rs.length = items.length ∧
      ∀ j, j < items.length →
        parseItem (items.getD j .null) = .ok (rs.getD j ⟨"", .null, 0⟩) := by
  induction items with
  | nil => exact ⟨[], rfl, rfl, fun j hj => absurd hj (by simp)⟩
  | cons it rest ih =>
    obtain ⟨r, hr⟩ := h it (by simp)
    obtain ⟨rs, hrs, hlen, hnth⟩ := ih (fun i hi => h i (by simp [hi]))
    refine ⟨r :: rs, by rw [parseItems_cons, hr, hrs]; rfl, by simp [hlen], ?_⟩
    intro j hj
    cases j with
    | zero => simpa using hr
    | succ j => simpa using hnth j (by simpa using hj)

theorem parseItems_err (items : List Json) (bad : Json) (hmem : bad ∈ items)
    (hbad : ∀ r, parseItem bad ≠ .ok r) :
    ∃ e, parseItems items = .error e := by
  induction items with
  | nil => cases hmem
  | cons it rest ih =>
    rcases List.mem_cons.mp hmem with rfl | hmem'
    · cases hp : parseItem bad with
      | error e => exact ⟨e, by rw [parseItems_cons, hp]⟩
      | ok r => exact absurd hp (hbad r)
    · cases hp : parseItem it with
      | error e => exact ⟨e, by rw [parseItems_cons, hp]⟩
      | ok r =>
        obtain ⟨e, he⟩ := ih hmem'
        exact ⟨e, by rw [parseItems_cons, hp, he]; rfl⟩

/-- C7 (confirmed): every transport-level failure — the `requests`
exception itself or a non-2xx status through `raise_for_status()` — comes
back to the caller as the single `requests.RequestException` kind
(`RemoteSearchError` in the spec's taxonomy), from the one round trip the
method performs (no retry); a response whose result items each carry
`id`, `text` and `score` deserializes to exactly one `SearchResult` per
item, in order, with `id` through `str(...)` and `score` through
`float(...)`; and an item missing any of the three keys makes the whole
call raise instead of being skipped. -/
theorem C7_client :
    (ColBERTv2Client.search .transportFailure = .error .remoteSearchError)
    ∧ (∀ (st : Nat) (body : Json), 400 ≤ st → st < 600 →
        ColBERTv2Client.search (.response st body) = .error .remoteSearchError)
    ∧ (∀ (st : Nat) (fields : List (String × Json)) (items : List Json), st < 400 →
        Json.objGet fields "results" = some (.arr items) →
        ((∀ i ∈ items, ∃ r, parseItem i = .ok r) →
          ∃ rs, ColBERTv2Client.search (.response st (.obj fields)) = .ok rs
            ∧ rs.length = items.length
            ∧ ∀ j, j < items.length →
                parseItem (items.getD j .null) = .ok (rs.getD j ⟨"", .null, 0⟩))
        ∧ (∀ bad ∈ items, (∀ r, parseItem bad ≠ .ok r) →
          ∃ e, ColBERTv2Client.search (.response st (.obj fields)) = .error e))
    ∧ (∀ itf : List (String × Json),
        Json.objGet itf "id" = none ∨ Json.objGet itf "text" = none
          ∨ Json.objGet itf "score" = none →
        ∃ e, parseItem (.obj itf) = .error e)
    ∧ (∀ (itf : List (String × Json)) (a t : Json) (q : ℚ),
        Json.objGet itf "id" = some a → Json.objGet itf "text" = some t →
        Json.objGet itf "score" = some (.float q) →
        parseItem (.obj itf) = .ok ⟨pyStr a, t, q⟩) := by
  refine ⟨rfl, ?_, ?_, ?_, ?_⟩
  · intro st body h4 h6
    simp only [ColBERTv2Client.search]
    rw [if_pos ⟨h4, h6⟩]
  · intro st fields items hst hres
    have hsearch : ColBERTv2Client.search (.response st (.obj fields))
        = parseItems items := by
      simp only [ColBERTv2Client.search]
      rw [if_neg (by omega), hres]
      rfl
    constructor
    · intro hall
      obtain ⟨rs, hrs, hlen, hnth⟩ := parseItems_ok items hall
      exact ⟨rs, by rw [hsearch, hrs], hlen, hnth⟩
    · intro bad hmem hbad
      obtain ⟨e, he⟩ := parseItems_err items bad hmem hbad
      exact ⟨e, by rw [hsearch, he]⟩
  · intro itf h
    rcases h with h | h | h
    · exact ⟨.keyError "id", by simp only [parseItem, pySubscript, h]; rfl⟩
    · cases hid : Json.objGet itf "id" with
      | none => exact ⟨.keyError "id", by simp only [parseItem, pySubscript, hid]; rfl⟩
      | some a => exact ⟨.keyError "text", by simp only [parseItem, pySubscript, hid, h]; rfl⟩
    · cases hid : Json.objGet itf "id" with
      | none => exact ⟨.keyError "id", by simp only [parseItem, pySubscript, hid]; rfl⟩
      | some a =>
        cases htext : Json.objGet itf "text" with
        | none =>
          exact ⟨.keyError "text", by simp only [parseItem, pySubscript, hid, htext]; rfl⟩
        | some t =>
          exact ⟨.keyError "score", by simp only [parseItem, pySubscript, hid, htext, h]; rfl⟩
  · intro itf a t q h1 h2 h3
    simp only [parseItem, pySubscript, h1, h2, h3, pyFloat]
    rfl

/-- C7 witness: the theorem at a 404 round trip, at an item missing its
`id`, and at the spec's example item (`id "1"`, `text "t"`, score 0.42). -/
theorem C7_client_witness :
    ColBERTv2Client.search (.response 404 (.obj [])) = .error .remoteSearchError
      ∧ (∃ e, parseItem (.obj [("text", .str "t"), ("score", .float (42/100))]) = .error e)
      ∧ parseItem (.obj [("id", .str "1"), ("text", .str "t"), ("score", .float (42/100))])
          = .ok ⟨"1", .str "t", 42/100⟩ := by
  refine ⟨C7_client.2.1 404 (.obj []) (by decide) (by decide), ?_, ?_⟩
  · exact C7_client.2.2.2.1 _ (Or.inl rfl)
  · exact C7_client.2.2.2.2 _ (.str "1") (.str "t") (42/100) rfl rfl rfl

/-- Whether a client call returned a result list rather than raising. -/
def returnedList (r : Except ClientErr (List SearchResult)) : Bool :=
  match r with
  | .ok _ => true
  | .error _ => false

/-- C10 counterexample: a 2xx body that is valid JSON but not an object
— the empty array — lacks the `results` key, yet the call raises the
`AttributeError` from `payload.get` instead of returning an empty list. -/
theorem C10_counterexample :
    ColBERTv2Client.search (.response 200 (.arr [])) = .error .attributeError
      ∧ returnedList (ColBERTv2Client.search (.response 200 (.arr []))) = false :=
  ⟨rfl, rfl⟩

/-- C10 (amended): a non-error response whose body is a JSON object
without the `results` key deserializes to the empty result list —
`payload.get("results", [])` supplies the default and the strict
per-item parsing applies only to items actually present; a valid-JSON
body that is not an object instead raises `AttributeError`. -/
theorem C10_missingResults (st : Nat) (fields : List (String × Json))
    (hst : st < 400) (hnone : Json.objGet fields "results" = none) :
    ColBERTv2Client.search (.response st (.obj fields)) = .ok [] := by
  simp only [ColBERTv2Client.search]
  rw [if_neg (by omega), hnone]
  rfl

/-- C10 witness: the amended theorem at a 200 response whose object body
has no `results` key. -/
theorem C10_missingResults_witness :
    ColBERTv2Client.search (.response 200 (.obj [("status", .str "ok")])) = .ok [] :=
  C10_missingResults 200 [("status", .str "ok")] (by decide) rfl
